import Mathlib

/-!
Shallow embedding of the graph-assembly and render-preparation core of the
Research_Funding_DB Streamlit app (`app2.py`).

Rows returned by the Cypher queries are modelled as records whose entity-id
fields are `Option Int` (Neo4j internal ids, possibly null) and whose
name/title fields are `Option String` (possibly null).  The Python `nodes`
dict is modelled as an insertion-ordered association list keyed by the raw
`node_id` value (so a hypothetical null key is representable, as it would be
in a Python dict); `add_node` is the guard-and-insert helper from the source.
Edges are raw pairs of the id values appended by each view's loop.
-/

namespace ResearchFundingDB

/-- A node identifier as it appears in a query row: a Neo4j internal id or null. -/
abbrev NodeId := Option Int

/-- The value stored in the `nodes` dict for one node: `{"id": ..., "label": ..., "group": ...}`. -/
structure GraphNode where
  id : NodeId
  label : String
  group : String
  deriving DecidableEq, Repr

/-- Python truthiness fallback `label or group`: a null or empty label falls back to the group name. -/
def labelOr (label : Option String) (group : String) : String :=
  match label with
  | none => group
  | some s => if s = "" then group else s

/-- Lookup in the insertion-ordered node dict (first binding for a key wins). -/
def lookupNode : List (NodeId × GraphNode) → NodeId → Option GraphNode
  | [], _ => none
  | (k, n) :: rest, q => if k = q then some n else lookupNode rest q

/-- Membership test for a key in the node dict, the embedding of `node_id in nodes`. -/
def hasNode (nodes : List (NodeId × GraphNode)) (q : NodeId) : Bool :=
  (lookupNode nodes q).isSome

/-- Embedding of `add_node(nodes, node_id, label, group)`: return unchanged on a null id,
insert only when the id is not already a key (first write wins). -/
def add_node (nodes : List (NodeId × GraphNode)) (node_id : NodeId)
    (label : Option String) (group : String) : List (NodeId × GraphNode) :=
  match node_id with
  | none => nodes
  | some i =>
      if hasNode nodes (some i) then nodes
      else nodes ++ [(some i, { id := some i, label := labelOr label group, group := group })]

/-- An edge as appended by the view loops: the raw pair of id values. -/
abbrev Edge := NodeId × NodeId

/-- The per-view assembly state: the `nodes` dict and the `edges` list. -/
structure GraphAcc where
  nodes : List (NodeId × GraphNode)
  edges : List Edge
  deriving DecidableEq, Repr

/-- A row of the cancer-network query (view 2): PI, grant and organization columns. -/
structure Row2 where
  pi_id : NodeId
  pi_name : Option String
  grant_id : NodeId
  grant_title : Option String
  org_id : NodeId
  org_name : Option String
  deriving DecidableEq, Repr

/-- The three sequential `add_node` calls of one view-2 iteration. -/
def view2Nodes (nodes : List (NodeId × GraphNode)) (r : Row2) : List (NodeId × GraphNode) :=
  add_node (add_node (add_node nodes r.pi_id r.pi_name "pi")
    r.grant_id r.grant_title "grant") r.org_id r.org_name "org"

/-- One iteration of the view-2 assembly loop: three `add_node` calls and two
unconditional edge appends. -/
def view2Step (s : GraphAcc) (r : Row2) : GraphAcc :=
  { nodes := view2Nodes s.nodes r
    edges := s.edges ++ [(r.pi_id, r.grant_id), (r.grant_id, r.org_id)] }

/-- The view-2 assembly: fresh `nodes = {}`, `edges = []`, then the row loop. -/
def view2Assemble (rows : List Row2) : GraphAcc :=
  rows.foldl view2Step { nodes := [], edges := [] }

/-- A row of the full-ecosystem query (view 3); all non-anchor columns come from
OPTIONAL MATCH branches and may be null. -/
structure Row3 where
  funder_id : NodeId
  funder_name : Option String
  grant_id : NodeId
  grant_title : Option String
  pi_id : NodeId
  pi_name : Option String
  org_id : NodeId
  org_name : Option String
  system_id : NodeId
  system_name : Option String
  theme_id : NodeId
  theme_name : Option String
  frascati_theme : Option String
  deriving DecidableEq, Repr

/-- A guarded edge append of view 3: the pair is appended only when both ids are non-null. -/
def guardEdge (a b : NodeId) : List Edge :=
  match a, b with
  | some x, some y => [(some x, some y)]
  | _, _ => []

/-- The five unconditional `add_node` calls of one view-3 iteration. -/
def view3NodesBase (nodes : List (NodeId × GraphNode)) (r : Row3) : List (NodeId × GraphNode) :=
  add_node (add_node (add_node (add_node (add_node nodes
    r.funder_id r.funder_name "funder")
    r.grant_id r.grant_title "grant")
    r.pi_id r.pi_name "pi")
    r.org_id r.org_name "org")
    r.system_id r.system_name "system"

/-- The node part of one view-3 iteration: the five unconditional calls, then the
theme node guarded on `theme_id is not None` with label
`theme_name or frascati_theme or "Theme"`. -/
def view3Nodes (nodes : List (NodeId × GraphNode)) (r : Row3) : List (NodeId × GraphNode) :=
  match r.theme_id with
  | none => view3NodesBase nodes r
  | some _ =>
      add_node (view3NodesBase nodes r) r.theme_id
        (some (labelOr r.theme_name (labelOr r.frascati_theme "Theme"))) "theme"

/-- The edges appended by one view-3 iteration: five null-guarded pairs. -/
def view3Edges (r : Row3) : List Edge :=
  guardEdge r.funder_id r.grant_id ++ guardEdge r.pi_id r.grant_id
    ++ guardEdge r.grant_id r.org_id ++ guardEdge r.org_id r.system_id
    ++ guardEdge r.grant_id r.theme_id

/-- One iteration of the view-3 assembly loop. -/
def view3Step (s : GraphAcc) (r : Row3) : GraphAcc :=
  { nodes := view3Nodes s.nodes r
    edges := s.edges ++ view3Edges r }

/-- The view-3 assembly: fresh state, then the row loop. -/
def view3Assemble (rows : List Row3) : GraphAcc :=
  rows.foldl view3Step { nodes := [], edges := [] }

/-- One iteration of the view-4 (multi-organization portfolios) assembly loop,
textually identical to the view-2 loop. -/
def view4Step (s : GraphAcc) (r : Row2) : GraphAcc :=
  { nodes := add_node (add_node (add_node s.nodes r.pi_id r.pi_name "pi")
      r.grant_id r.grant_title "grant") r.org_id r.org_name "org"
    edges := s.edges ++ [(r.pi_id, r.grant_id), (r.grant_id, r.org_id)] }

/-- The view-4 assembly: fresh state, then the row loop. -/
def view4Assemble (rows : List Row2) : GraphAcc :=
  rows.foldl view4Step { nodes := [], edges := [] }

/-- A row of the MSU Mankato query (view 5): PI, grant, funder and organization columns. -/
structure Row5 where
  pi_id : NodeId
  pi_name : Option String
  grant_id : NodeId
  grant_title : Option String
  funder_id : NodeId
  funder_name : Option String
  org_id : NodeId
  org_name : Option String
  deriving DecidableEq, Repr

/-- The four sequential `add_node` calls of one view-5 iteration. -/
def view5Nodes (nodes : List (NodeId × GraphNode)) (r : Row5) : List (NodeId × GraphNode) :=
  add_node (add_node (add_node (add_node nodes r.pi_id r.pi_name "pi")
    r.grant_id r.grant_title "grant") r.funder_id r.funder_name "funder")
    r.org_id r.org_name "org"

/-- One iteration of the view-5 assembly loop: four `add_node` calls and three
unconditional edge appends. -/
def view5Step (s : GraphAcc) (r : Row5) : GraphAcc :=
  { nodes := view5Nodes s.nodes r
    edges := s.edges ++ [(r.pi_id, r.grant_id), (r.grant_id, r.funder_id), (r.grant_id, r.org_id)] }

/-- The view-5 assembly: fresh state, then the row loop. -/
def view5Assemble (rows : List Row5) : GraphAcc :=
  rows.foldl view5Step { nodes := [], edges := [] }

/-- A view-2 render cycle seen as a function of the previous cycle's state: the
source re-initializes `nodes = {}` and `edges = []` before the loop, so the
incoming state is discarded. -/
def view2Run (_prev : GraphAcc) (rows : List Row2) : GraphAcc :=
  rows.foldl view2Step { nodes := [], edges := [] }

/-- The static group-to-color table of `build_and_render_network`. -/
def group_colors : List (String × String) :=
  [("pi", "#3A7CA5"), ("grant", "#F4A259"), ("org", "#5B8E7D"),
   ("funder", "#D1495B"), ("system", "#735D78"), ("theme", "#F6AE2D")]

/-- First-match lookup in a string-keyed table, the embedding of `dict.get`. -/
def lookupColor : List (String × String) → String → Option String
  | [], _ => none
  | (k, v) :: rest, g => if k = g then some v else lookupColor rest g

/-- The color of a node group: `group_colors.get(group, "#999999")`. -/
def groupColor (g : String) : String :=
  match lookupColor group_colors g with
  | some c => c
  | none => "#999999"

/-- A node as handed to the visualization library: id, label and resolved color. -/
structure RenderedNode where
  id : NodeId
  label : String
  color : String
  deriving DecidableEq, Repr

/-- The observable outcome of `build_and_render_network`: either the early-return
"no nodes" warning, or a rendered network built from the nodes and edges. -/
inductive RenderResult where
  | noNodes (warning : String)
  | rendered (title : String) (nodes : List RenderedNode) (edges : List Edge)
  deriving DecidableEq, Repr

/-- Embedding of `build_and_render_network(nodes, edges, title)`: warn and return
when `nodes` is empty, otherwise feed every node (colored through `groupColor`)
and every edge to the network. -/
def build_and_render_network (nodes : List (NodeId × GraphNode)) (edges : List Edge)
    (title : String) : RenderResult :=
  if nodes = [] then .noNodes "No nodes to display for this query."
  else
    .rendered title
      (nodes.map fun p => { id := p.2.id, label := p.2.label, color := groupColor p.2.group })
      edges

/-- The observable outcome of one view-2 interaction: the empty-rows warning, or
the displayed render result. -/
inductive ViewOutcome where
  | noResults (warning : String)
  | displayed (result : RenderResult)
  deriving DecidableEq, Repr

/-- Embedding of the view-2 controller branch: warn on an empty row list,
otherwise assemble and render. -/
def view2_controller (rows : List Row2) : ViewOutcome :=
  if rows = [] then .noResults "No cancer-related grants found with this pattern."
  else
    let g := view2Assemble rows
    .displayed (build_and_render_network g.nodes g.edges "Cancer-related PI–Organization network")

/-! ### Scenario rows used by concrete claim instances -/

/-- A view-2/4 row whose `pi_id` is null while `grant_id` and `org_id` are not. -/
def nullPiRow : Row2 :=
  { pi_id := none, pi_name := none, grant_id := some 10, grant_title := some "G",
    org_id := some 100, org_name := some "Org" }

/-- A view-3 row binding only the funding agency and grant ids. -/
def funderGrantRow : Row3 :=
  { funder_id := some 1, funder_name := some "F", grant_id := some 2, grant_title := some "G",
    pi_id := none, pi_name := none, org_id := none, org_name := none,
    system_id := none, system_name := none, theme_id := none, theme_name := none,
    frascati_theme := none }

/-- First of two rows declaring id 42 with different labels. -/
def dupRowA : Row2 :=
  { pi_id := some 42, pi_name := some "A", grant_id := some 1, grant_title := some "G",
    org_id := some 2, org_name := some "O" }

/-- Second of two rows declaring id 42 with a different label. -/
def dupRowB : Row2 :=
  { pi_id := some 42, pi_name := some "B", grant_id := some 1, grant_title := some "G",
    org_id := some 2, org_name := some "O" }

/-- Scenario B of the specification: a full-ecosystem row with a null theme binding. -/
def scenarioBRow : Row3 :=
  { funder_id := some 1, funder_name := some "F", grant_id := some 2, grant_title := some "G",
    pi_id := some 3, pi_name := some "P", org_id := some 4, org_name := some "O",
    system_id := some 5, system_name := some "S", theme_id := none, theme_name := none,
    frascati_theme := none }

/-- Scenario D, first row: grant 10 held at organization 100. -/
def scenarioDRow1 : Row2 :=
  { pi_id := some 1, pi_name := some "A", grant_id := some 10, grant_title := some "G1",
    org_id := some 100, org_name := some "Org1" }

/-- Scenario D, second row: the same grant 10 held at organization 200. -/
def scenarioDRow2 : Row2 :=
  { pi_id := some 1, pi_name := some "A", grant_id := some 10, grant_title := some "G1",
    org_id := some 200, org_name := some "Org2" }

/-! ### Helper lemmas about the node dict -/

/-- A key found in a prefix is found, with the same value, after appending. -/
lemma lookupNode_append_left {nodes : List (NodeId × GraphNode)} {q : NodeId} {n : GraphNode}
    (h : lookupNode nodes q = some n) (more : List (NodeId × GraphNode)) :
    lookupNode (nodes ++ more) q = some n := by
  induction nodes with
  | nil => simp [lookupNode] at h
  | cons p rest ih =>
      obtain ⟨a, m⟩ := p
      by_cases hk : a = q
      · simpa [lookupNode, hk] using h
      · simp only [lookupNode, if_neg hk] at h
        simpa [lookupNode, hk] using ih h

/-- Appending a binding for a different key does not make an absent key present. -/
lemma lookupNode_append_single_ne {nodes : List (NodeId × GraphNode)} {q k : NodeId}
    {n : GraphNode} (h : lookupNode nodes q = none) (hne : k ≠ q) :
    lookupNode (nodes ++ [(k, n)]) q = none := by
  induction nodes with
  | nil => simp [lookupNode, hne]
  | cons p rest ih =>
      obtain ⟨a, m⟩ := p
      by_cases hk : a = q
      · simp [lookupNode, hk] at h
      · simp only [lookupNode, if_neg hk] at h
        simpa [lookupNode, hk] using ih h

/-- Appending a binding for an absent key makes it present with that value. -/
lemma lookupNode_append_single_self {nodes : List (NodeId × GraphNode)} {q : NodeId}
    {n : GraphNode} (h : lookupNode nodes q = none) :
    lookupNode (nodes ++ [(q, n)]) q = some n := by
  induction nodes with
  | nil => simp [lookupNode]
  | cons p rest ih =>
      obtain ⟨a, m⟩ := p
      by_cases hk : a = q
      · simp [lookupNode, hk] at h
      · simp only [lookupNode, if_neg hk] at h
        simpa [lookupNode, hk] using ih h

/-- An existing binding survives `add_node` unchanged (first write wins). -/
lemma lookupNode_add_node {nodes : List (NodeId × GraphNode)} {q : NodeId} {n : GraphNode}
    (h : lookupNode nodes q = some n) (i : NodeId) (l : Option String) (g : String) :
    lookupNode (add_node nodes i l g) q = some n := by
  match i with
  | none => simpa [add_node] using h
  | some j =>
      by_cases hj : hasNode nodes (some j)
      · simpa [add_node, hj] using h
      · simpa [add_node, hj] using lookupNode_append_left h _

/-- Keys present before `add_node` are present after it. -/
lemma hasNode_add_node_mono {nodes : List (NodeId × GraphNode)} {q : NodeId}
    (h : hasNode nodes q = true) (i : NodeId) (l : Option String) (g : String) :
    hasNode (add_node nodes i l g) q = true := by
  unfold hasNode at h ⊢
  obtain ⟨n, hn⟩ := Option.isSome_iff_exists.mp h
  rw [lookupNode_add_node hn i l g]
  rfl

/-- Unfolding `add_node` in the inserting case. -/
lemma add_node_insert {nodes : List (NodeId × GraphNode)} {i : Int}
    (hj : ¬ hasNode nodes (some i) = true) (l : Option String) (g : String) :
    add_node nodes (some i) l g
      = nodes ++ [(some i, { id := some i, label := labelOr l g, group := g })] := by
  simp [add_node, hj]

/-- After `add_node` with a non-null id, that id is a key of the dict. -/
lemma hasNode_add_node_self (nodes : List (NodeId × GraphNode)) (i : Int)
    (l : Option String) (g : String) :
    hasNode (add_node nodes (some i) l g) (some i) = true := by
  by_cases hj : hasNode nodes (some i)
  · simp [add_node, hj]
  · have hnone : lookupNode nodes (some i) = none := by
      unfold hasNode at hj
      exact Option.not_isSome_iff_eq_none.mp (by simpa using hj)
    rw [add_node_insert hj]
    unfold hasNode
    rw [lookupNode_append_single_self hnone]
    rfl

/-- A null key absent from the dict stays absent across `add_node`. -/
lemma lookupNode_add_node_none {nodes : List (NodeId × GraphNode)}
    (h : lookupNode nodes none = none) (i : NodeId) (l : Option String) (g : String) :
    lookupNode (add_node nodes i l g) none = none := by
  match i with
  | none => simpa [add_node] using h
  | some j =>
      by_cases hj : hasNode nodes (some j)
      · simpa [add_node, hj] using h
      · simpa [add_node, hj] using lookupNode_append_single_ne h (by simp)

/-- Every entry of the dict after `add_node` is an old entry or carries the new group. -/
lemma mem_add_node {p : NodeId × GraphNode} {nodes : List (NodeId × GraphNode)}
    {i : NodeId} {l : Option String} {g : String} (h : p ∈ add_node nodes i l g) :
    p ∈ nodes ∨ p.2.group = g := by
  match i with
  | none => exact Or.inl (by simpa [add_node] using h)
  | some j =>
      by_cases hj : hasNode nodes (some j)
      · exact Or.inl (by simpa [add_node, hj] using h)
      · rw [add_node_insert hj] at h
        rcases List.mem_append.mp h with h1 | h2
        · exact Or.inl h1
        · right
          have : p = (some j, { id := some j, label := labelOr l g, group := g }) := by
            simpa using h2
          rw [this]

/-- A key with a decidable lookup is a key iff it occurs among the dict's keys. -/
lemma hasNode_iff_mem_keys (nodes : List (NodeId × GraphNode)) (q : NodeId) :
    hasNode nodes q = true ↔ q ∈ nodes.map Prod.fst := by
  induction nodes with
  | nil => simp [hasNode, lookupNode]
  | cons p rest ih =>
      obtain ⟨a, m⟩ := p
      by_cases hk : a = q
      · simp [hasNode, lookupNode, hk]
      · simp only [hasNode, lookupNode, if_neg hk, List.map_cons, List.mem_cons]
        unfold hasNode at ih
        rw [ih]
        simp [Ne.symm hk]

/-- The keys of the node dict stay duplicate-free across `add_node`. -/
lemma nodup_keys_add_node {nodes : List (NodeId × GraphNode)}
    (h : (nodes.map Prod.fst).Nodup) (i : NodeId) (l : Option String) (g : String) :
    ((add_node nodes i l g).map Prod.fst).Nodup := by
  match i with
  | none => simpa [add_node] using h
  | some j =>
      by_cases hj : hasNode nodes (some j)
      · simpa [add_node, hj] using h
      · have hmem : some j ∉ nodes.map Prod.fst := by
          intro hc
          exact hj ((hasNode_iff_mem_keys nodes (some j)).mpr hc)
        rw [add_node_insert hj, List.map_append]
        refine List.Nodup.append h (by simp) ?_
        intro x hx hx2
        simp only [List.map_cons, List.map_nil, List.mem_singleton] at hx2
        subst hx2
        exact hmem hx

/-- Invariant preservation along a left fold. -/
lemma foldl_inv {σ ρ : Type} (P : σ → Prop) (f : σ → ρ → σ)
    (hstep : ∀ s r, P s → P (f s r)) :
    ∀ (rows : List ρ) (s : σ), P s → P (rows.foldl f s) := by
  intro rows
  induction rows with
  | nil => intro s h; exact h
  | cons r rest ih => intro s h; exact ih _ (hstep s r h)

/-- Invariant preservation along a left fold whose rows all satisfy a side condition. -/
lemma foldl_inv_mem {σ ρ : Type} (P : σ → Prop) (Q : ρ → Prop) (f : σ → ρ → σ)
    (hstep : ∀ s r, Q r → P s → P (f s r)) :
    ∀ (rows : List ρ) (s : σ), (∀ r ∈ rows, Q r) → P s → P (rows.foldl f s) := by
  intro rows
  induction rows with
  | nil => intro s _ h; exact h
  | cons r rest ih =>
      intro s hq h
      exact ih _ (fun x hx => hq x (List.mem_cons_of_mem r hx)) (hstep s r (hq r (List.mem_cons_self r rest)) h)

/-! ### Per-view characterization lemmas -/

/-- A member of a guarded append is exactly the guarded pair, with both ids non-null. -/
lemma mem_guardEdge {a b : NodeId} {e : Edge} (h : e ∈ guardEdge a b) :
    e = (a, b) ∧ a ≠ none ∧ b ≠ none := by
  cases a with
  | none => simp [guardEdge] at h
  | some x =>
      cases b with
      | none => simp [guardEdge] at h
      | some y =>
          simp only [guardEdge, List.mem_singleton] at h
          simp [h]

/-- The view-4 loop body is the view-2 loop body. -/
lemma view4Step_eq : view4Step = view2Step := rfl

/-- The view-4 assembly is the view-2 assembly. -/
lemma view4Assemble_eq : view4Assemble = view2Assemble := by
  funext rows
  unfold view4Assemble view2Assemble
  rw [view4Step_eq]

/-- The edge list built by the view-2 loop is the concatenation of the two pairs
appended for each row, in row order. -/
lemma view2_edges_foldl : ∀ (rows : List Row2) (s : GraphAcc),
    (List.foldl view2Step s rows).edges
      = s.edges ++ rows.flatMap (fun r => [(r.pi_id, r.grant_id), (r.grant_id, r.org_id)]) := by
  intro rows
  induction rows with
  | nil => intro s; simp
  | cons r rest ih =>
      intro s
      rw [List.foldl_cons, ih]
      simp [view2Step]

/-- The edge list built by the view-5 loop is the concatenation of the three pairs
appended for each row, in row order. -/
lemma view5_edges_foldl : ∀ (rows : List Row5) (s : GraphAcc),
    (List.foldl view5Step s rows).edges
      = s.edges ++ rows.flatMap
          (fun r => [(r.pi_id, r.grant_id), (r.grant_id, r.funder_id), (r.grant_id, r.org_id)]) := by
  intro rows
  induction rows with
  | nil => intro s; simp
  | cons r rest ih =>
      intro s
      rw [List.foldl_cons, ih]
      simp [view5Step]

/-- The edge list built by the view-3 loop is the concatenation of each row's
guarded edges, in row order. -/
lemma view3_edges_foldl : ∀ (rows : List Row3) (s : GraphAcc),
    (List.foldl view3Step s rows).edges = s.edges ++ rows.flatMap view3Edges := by
  intro rows
  induction rows with
  | nil => intro s; simp
  | cons r rest ih =>
      intro s
      rw [List.foldl_cons, ih]
      simp [view3Step]

/-- Keys survive the view-2 node additions. -/
lemma hasNode_view2Nodes_mono {nodes : List (NodeId × GraphNode)} {q : NodeId}
    (h : hasNode nodes q = true) (r : Row2) : hasNode (view2Nodes nodes r) q = true := by
  unfold view2Nodes
  exact hasNode_add_node_mono (hasNode_add_node_mono (hasNode_add_node_mono h _ _ _) _ _ _) _ _ _

/-- Keys survive the five unconditional view-3 node additions. -/
lemma hasNode_view3NodesBase_mono {nodes : List (NodeId × GraphNode)} {q : NodeId}
    (h : hasNode nodes q = true) (r : Row3) : hasNode (view3NodesBase nodes r) q = true := by
  unfold view3NodesBase
  exact hasNode_add_node_mono (hasNode_add_node_mono (hasNode_add_node_mono
    (hasNode_add_node_mono (hasNode_add_node_mono h _ _ _) _ _ _) _ _ _) _ _ _) _ _ _

/-- Keys survive the view-3 node additions. -/
lemma hasNode_view3Nodes_mono {nodes : List (NodeId × GraphNode)} {q : NodeId}
    (h : hasNode nodes q = true) (r : Row3) : hasNode (view3Nodes nodes r) q = true := by
  unfold view3Nodes
  cases ht : r.theme_id with
  | none => exact hasNode_view3NodesBase_mono h r
  | some t => exact hasNode_add_node_mono (hasNode_view3NodesBase_mono h r) _ _ _

/-- Keys survive the view-5 node additions. -/
lemma hasNode_view5Nodes_mono {nodes : List (NodeId × GraphNode)} {q : NodeId}
    (h : hasNode nodes q = true) (r : Row5) : hasNode (view5Nodes nodes r) q = true := by
  unfold view5Nodes
  exact hasNode_add_node_mono (hasNode_add_node_mono (hasNode_add_node_mono
    (hasNode_add_node_mono h _ _ _) _ _ _) _ _ _) _ _ _

/-- Each non-null id of a view-2 row is a key after that row's node additions. -/
lemma hasNode_view2Nodes_ids (nodes : List (NodeId × GraphNode)) (r : Row2) :
    (∀ x, r.pi_id = some x → hasNode (view2Nodes nodes r) (some x) = true) ∧
    (∀ x, r.grant_id = some x → hasNode (view2Nodes nodes r) (some x) = true) ∧
    (∀ x, r.org_id = some x → hasNode (view2Nodes nodes r) (some x) = true) := by
  unfold view2Nodes
  refine ⟨fun x hx => ?_, fun x hx => ?_, fun x hx => ?_⟩
  · rw [hx]
    exact hasNode_add_node_mono (hasNode_add_node_mono
      (hasNode_add_node_self nodes x r.pi_name "pi") _ _ _) _ _ _
  · rw [hx]
    exact hasNode_add_node_mono (hasNode_add_node_self _ x r.grant_title "grant") _ _ _
  · rw [hx]
    exact hasNode_add_node_self _ x r.org_name "org"

/-- Each non-null id of a view-5 row is a key after that row's node additions. -/
lemma hasNode_view5Nodes_ids (nodes : List (NodeId × GraphNode)) (r : Row5) :
    (∀ x, r.pi_id = some x → hasNode (view5Nodes nodes r) (some x) = true) ∧
    (∀ x, r.grant_id = some x → hasNode (view5Nodes nodes r) (some x) = true) ∧
    (∀ x, r.funder_id = some x → hasNode (view5Nodes nodes r) (some x) = true) ∧
    (∀ x, r.org_id = some x → hasNode (view5Nodes nodes r) (some x) = true) := by
  unfold view5Nodes
  refine ⟨fun x hx => ?_, fun x hx => ?_, fun x hx => ?_, fun x hx => ?_⟩
  · rw [hx]
    exact hasNode_add_node_mono (hasNode_add_node_mono (hasNode_add_node_mono
      (hasNode_add_node_self nodes x r.pi_name "pi") _ _ _) _ _ _) _ _ _
  · rw [hx]
    exact hasNode_add_node_mono (hasNode_add_node_mono
      (hasNode_add_node_self _ x r.grant_title "grant") _ _ _) _ _ _
  · rw [hx]
    exact hasNode_add_node_mono (hasNode_add_node_self _ x r.funder_name "funder") _ _ _
  · rw [hx]
    exact hasNode_add_node_self _ x r.org_name "org"

/-- Each non-null id among the five unconditional view-3 columns is a key after
the base additions. -/
lemma hasNode_view3NodesBase_ids (nodes : List (NodeId × GraphNode)) (r : Row3) :
    (∀ x, r.funder_id = some x → hasNode (view3NodesBase nodes r) (some x) = true) ∧
    (∀ x, r.grant_id = some x → hasNode (view3NodesBase nodes r) (some x) = true) ∧
    (∀ x, r.pi_id = some x → hasNode (view3NodesBase nodes r) (some x) = true) ∧
    (∀ x, r.org_id = some x → hasNode (view3NodesBase nodes r) (some x) = true) ∧
    (∀ x, r.system_id = some x → hasNode (view3NodesBase nodes r) (some x) = true) := by
  unfold view3NodesBase
  refine ⟨fun x hx => ?_, fun x hx => ?_, fun x hx => ?_, fun x hx => ?_, fun x hx => ?_⟩
  · rw [hx]
    exact hasNode_add_node_mono (hasNode_add_node_mono (hasNode_add_node_mono
      (hasNode_add_node_mono (hasNode_add_node_self nodes x r.funder_name "funder") _ _ _)
      _ _ _) _ _ _) _ _ _
  · rw [hx]
    exact hasNode_add_node_mono (hasNode_add_node_mono (hasNode_add_node_mono
      (hasNode_add_node_self _ x r.grant_title "grant") _ _ _) _ _ _) _ _ _
  · rw [hx]
    exact hasNode_add_node_mono (hasNode_add_node_mono
      (hasNode_add_node_self _ x r.pi_name "pi") _ _ _) _ _ _
  · rw [hx]
    exact hasNode_add_node_mono (hasNode_add_node_self _ x r.org_name "org") _ _ _
  · rw [hx]
    exact hasNode_add_node_self _ x r.system_name "system"

/-- Each non-null id of a view-3 row, the theme included, is a key after that
row's node additions. -/
lemma hasNode_view3Nodes_ids (nodes : List (NodeId × GraphNode)) (r : Row3) :
    (∀ x, r.funder_id = some x → hasNode (view3Nodes nodes r) (some x) = true) ∧
    (∀ x, r.grant_id = some x → hasNode (view3Nodes nodes r) (some x) = true) ∧
    (∀ x, r.pi_id = some x → hasNode (view3Nodes nodes r) (some x) = true) ∧
    (∀ x, r.org_id = some x → hasNode (view3Nodes nodes r) (some x) = true) ∧
    (∀ x, r.system_id = some x → hasNode (view3Nodes nodes r) (some x) = true) ∧
    (∀ x, r.theme_id = some x → hasNode (view3Nodes nodes r) (some x) = true) := by
  have hbase := hasNode_view3NodesBase_ids nodes r
  unfold view3Nodes
  cases ht : r.theme_id with
  | none =>
      dsimp only
      exact ⟨hbase.1, hbase.2.1, hbase.2.2.1, hbase.2.2.2.1, hbase.2.2.2.2,
        fun x hx => Option.noConfusion hx⟩
  | some t =>
      dsimp only
      refine ⟨fun x hx => hasNode_add_node_mono (hbase.1 x hx) _ _ _,
        fun x hx => hasNode_add_node_mono (hbase.2.1 x hx) _ _ _,
        fun x hx => hasNode_add_node_mono (hbase.2.2.1 x hx) _ _ _,
        fun x hx => hasNode_add_node_mono (hbase.2.2.2.1 x hx) _ _ _,
        fun x hx => hasNode_add_node_mono (hbase.2.2.2.2 x hx) _ _ _,
        fun x hx => ?_⟩
      have htx : t = x := by injection hx
      subst htx
      exact hasNode_add_node_self _ t _ "theme"

/-! ### Assembly-level lemmas -/

/-- An absent null key stays absent across the view-2 node additions. -/
lemma lookupNode_view2Nodes_none {nodes : List (NodeId × GraphNode)}
    (h : lookupNode nodes none = none) (r : Row2) :
    lookupNode (view2Nodes nodes r) none = none := by
  unfold view2Nodes
  exact lookupNode_add_node_none (lookupNode_add_node_none (lookupNode_add_node_none h _ _ _) _ _ _) _ _ _

/-- An absent null key stays absent across the view-3 node additions. -/
lemma lookupNode_view3Nodes_none {nodes : List (NodeId × GraphNode)}
    (h : lookupNode nodes none = none) (r : Row3) :
    lookupNode (view3Nodes nodes r) none = none := by
  have hbase : lookupNode (view3NodesBase nodes r) none = none := by
    unfold view3NodesBase
    exact lookupNode_add_node_none (lookupNode_add_node_none (lookupNode_add_node_none
      (lookupNode_add_node_none (lookupNode_add_node_none h _ _ _) _ _ _) _ _ _) _ _ _) _ _ _
  unfold view3Nodes
  cases ht : r.theme_id with
  | none => exact hbase
  | some t =>
      dsimp only
      exact lookupNode_add_node_none hbase _ _ _

/-- An absent null key stays absent across the view-5 node additions. -/
lemma lookupNode_view5Nodes_none {nodes : List (NodeId × GraphNode)}
    (h : lookupNode nodes none = none) (r : Row5) :
    lookupNode (view5Nodes nodes r) none = none := by
  unfold view5Nodes
  exact lookupNode_add_node_none (lookupNode_add_node_none (lookupNode_add_node_none
    (lookupNode_add_node_none h _ _ _) _ _ _) _ _ _) _ _ _

/-- An existing binding survives the view-2 node additions unchanged. -/
lemma lookupNode_view2Nodes_stable {nodes : List (NodeId × GraphNode)} {q : NodeId}
    {n : GraphNode} (h : lookupNode nodes q = some n) (r : Row2) :
    lookupNode (view2Nodes nodes r) q = some n := by
  unfold view2Nodes
  exact lookupNode_add_node (lookupNode_add_node (lookupNode_add_node h _ _ _) _ _ _) _ _ _

/-- An existing binding survives the whole view-2 loop unchanged. -/
lemma view2_foldl_stable {q : NodeId} {n : GraphNode} :
    ∀ (rows : List Row2) (s : GraphAcc), lookupNode s.nodes q = some n →
      lookupNode (List.foldl view2Step s rows).nodes q = some n := by
  intro rows s h
  exact foldl_inv (fun s => lookupNode s.nodes q = some n) view2Step
    (fun s r hs => lookupNode_view2Nodes_stable hs r) rows s h

/-- The node dict's keys stay duplicate-free across the whole view-2 loop. -/
lemma view2_foldl_nodup :
    ∀ (rows : List Row2) (s : GraphAcc), (s.nodes.map Prod.fst).Nodup →
      ((List.foldl view2Step s rows).nodes.map Prod.fst).Nodup := by
  intro rows s h
  refine foldl_inv (fun s => (s.nodes.map Prod.fst).Nodup) view2Step ?_ rows s h
  intro s r hs
  exact nodup_keys_add_node (nodup_keys_add_node (nodup_keys_add_node hs _ _ _) _ _ _) _ _ _

/-- Referential completeness is invariant under the view-3 loop body. -/
lemma view3Step_complete {s : GraphAcc} (r : Row3)
    (h : ∀ e ∈ s.edges, hasNode s.nodes e.1 = true ∧ hasNode s.nodes e.2 = true) :
    ∀ e ∈ (view3Step s r).edges,
      hasNode (view3Step s r).nodes e.1 = true ∧ hasNode (view3Step s r).nodes e.2 = true := by
  intro e he
  have hids := hasNode_view3Nodes_ids s.nodes r
  simp only [view3Step] at he ⊢
  rcases List.mem_append.mp he with hold | hnew
  · exact ⟨hasNode_view3Nodes_mono (h e hold).1 r, hasNode_view3Nodes_mono (h e hold).2 r⟩
  · unfold view3Edges at hnew
    have endpoint : ∀ (a : NodeId), a ≠ none →
        (a = r.funder_id ∨ a = r.grant_id ∨ a = r.pi_id ∨ a = r.org_id ∨ a = r.system_id ∨ a = r.theme_id) →
        hasNode (view3Nodes s.nodes r) a = true := by
      intro a ha hcase
      obtain ⟨x, hx⟩ := Option.ne_none_iff_exists'.mp ha
      subst hx
      rcases hcase with hc | hc | hc | hc | hc | hc
      · exact hids.1 x hc.symm
      · exact hids.2.1 x hc.symm
      · exact hids.2.2.1 x hc.symm
      · exact hids.2.2.2.1 x hc.symm
      · exact hids.2.2.2.2.1 x hc.symm
      · exact hids.2.2.2.2.2 x hc.symm
    rcases List.mem_append.mp hnew with h4 | h5
    · rcases List.mem_append.mp h4 with h3 | hsys
      · rcases List.mem_append.mp h3 with h2 | horg
        · rcases List.mem_append.mp h2 with hfg | hpg
          · obtain ⟨he2, ha, hb⟩ := mem_guardEdge hfg
            subst he2
            exact ⟨endpoint _ ha (Or.inl rfl), endpoint _ hb (Or.inr (Or.inl rfl))⟩
          · obtain ⟨he2, ha, hb⟩ := mem_guardEdge hpg
            subst he2
            exact ⟨endpoint _ ha (Or.inr (Or.inr (Or.inl rfl))), endpoint _ hb (Or.inr (Or.inl rfl))⟩
        · obtain ⟨he2, ha, hb⟩ := mem_guardEdge horg
          subst he2
          exact ⟨endpoint _ ha (Or.inr (Or.inl rfl)), endpoint _ hb (Or.inr (Or.inr (Or.inr (Or.inl rfl))))⟩
      · obtain ⟨he2, ha, hb⟩ := mem_guardEdge hsys
        subst he2
        exact ⟨endpoint _ ha (Or.inr (Or.inr (Or.inr (Or.inl rfl)))),
          endpoint _ hb (Or.inr (Or.inr (Or.inr (Or.inr (Or.inl rfl)))))⟩
    · obtain ⟨he2, ha, hb⟩ := mem_guardEdge h5
      subst he2
      exact ⟨endpoint _ ha (Or.inr (Or.inl rfl)),
        endpoint _ hb (Or.inr (Or.inr (Or.inr (Or.inr (Or.inr rfl)))))⟩

/-- Referential completeness holds for the whole view-3 assembly. -/
lemma view3Assemble_complete (rows : List Row3) :
    ∀ e ∈ (view3Assemble rows).edges,
      hasNode (view3Assemble rows).nodes e.1 = true
        ∧ hasNode (view3Assemble rows).nodes e.2 = true := by
  unfold view3Assemble
  refine foldl_inv
    (fun s => ∀ e ∈ s.edges, hasNode s.nodes e.1 = true ∧ hasNode s.nodes e.2 = true)
    view3Step (fun s r hs => view3Step_complete r hs) rows _ ?_
  intro e he
  simp at he

/-- With all three ids non-null, referential completeness is invariant under the
view-2 loop body. -/
lemma view2Step_complete {s : GraphAcc} {r : Row2}
    (hq : r.pi_id ≠ none ∧ r.grant_id ≠ none ∧ r.org_id ≠ none)
    (h : ∀ e ∈ s.edges, hasNode s.nodes e.1 = true ∧ hasNode s.nodes e.2 = true) :
    ∀ e ∈ (view2Step s r).edges,
      hasNode (view2Step s r).nodes e.1 = true ∧ hasNode (view2Step s r).nodes e.2 = true := by
  intro e he
  have hids := hasNode_view2Nodes_ids s.nodes r
  obtain ⟨p, hp⟩ := Option.ne_none_iff_exists'.mp hq.1
  obtain ⟨g, hg⟩ := Option.ne_none_iff_exists'.mp hq.2.1
  obtain ⟨o, ho⟩ := Option.ne_none_iff_exists'.mp hq.2.2
  simp only [view2Step] at he ⊢
  rcases List.mem_append.mp he with hold | hnew
  · exact ⟨hasNode_view2Nodes_mono (h e hold).1 r, hasNode_view2Nodes_mono (h e hold).2 r⟩
  · rcases List.mem_cons.mp hnew with he1 | hnew2
    · subst he1
      exact ⟨by rw [hp]; exact hids.1 p hp, by rw [hg]; exact hids.2.1 g hg⟩
    · rcases List.mem_cons.mp hnew2 with he1 | hnil
      · subst he1
        exact ⟨by rw [hg]; exact hids.2.1 g hg, by rw [ho]; exact hids.2.2 o ho⟩
      · simp at hnil

/-- With all three ids non-null on every row, referential completeness holds for
the whole view-2 assembly. -/
lemma view2Assemble_complete (rows : List Row2)
    (hrows : ∀ r ∈ rows, r.pi_id ≠ none ∧ r.grant_id ≠ none ∧ r.org_id ≠ none) :
    ∀ e ∈ (view2Assemble rows).edges,
      hasNode (view2Assemble rows).nodes e.1 = true
        ∧ hasNode (view2Assemble rows).nodes e.2 = true := by
  unfold view2Assemble
  refine foldl_inv_mem
    (fun s => ∀ e ∈ s.edges, hasNode s.nodes e.1 = true ∧ hasNode s.nodes e.2 = true)
    (fun r => r.pi_id ≠ none ∧ r.grant_id ≠ none ∧ r.org_id ≠ none)
    view2Step (fun s r hr hs => view2Step_complete hr hs) rows _ hrows ?_
  intro e he
  simp at he

/-- With all four ids non-null, referential completeness is invariant under the
view-5 loop body. -/
lemma view5Step_complete {s : GraphAcc} {r : Row5}
    (hq : r.pi_id ≠ none ∧ r.grant_id ≠ none ∧ r.funder_id ≠ none ∧ r.org_id ≠ none)
    (h : ∀ e ∈ s.edges, hasNode s.nodes e.1 = true ∧ hasNode s.nodes e.2 = true) :
    ∀ e ∈ (view5Step s r).edges,
      hasNode (view5Step s r).nodes e.1 = true ∧ hasNode (view5Step s r).nodes e.2 = true := by
  intro e he
  have hids := hasNode_view5Nodes_ids s.nodes r
  obtain ⟨p, hp⟩ := Option.ne_none_iff_exists'.mp hq.1
  obtain ⟨g, hg⟩ := Option.ne_none_iff_exists'.mp hq.2.1
  obtain ⟨f, hf⟩ := Option.ne_none_iff_exists'.mp hq.2.2.1
  obtain ⟨o, ho⟩ := Option.ne_none_iff_exists'.mp hq.2.2.2
  simp only [view5Step] at he ⊢
  rcases List.mem_append.mp he with hold | hnew
  · exact ⟨hasNode_view5Nodes_mono (h e hold).1 r, hasNode_view5Nodes_mono (h e hold).2 r⟩
  · rcases List.mem_cons.mp hnew with he1 | hnew2
    · subst he1
      exact ⟨by rw [hp]; exact hids.1 p hp, by rw [hg]; exact hids.2.1 g hg⟩
    · rcases List.mem_cons.mp hnew2 with he1 | hnew3
      · subst he1
        exact ⟨by rw [hg]; exact hids.2.1 g hg, by rw [hf]; exact hids.2.2.1 f hf⟩
      · rcases List.mem_cons.mp hnew3 with he1 | hnil
        · subst he1
          exact ⟨by rw [hg]; exact hids.2.1 g hg, by rw [ho]; exact hids.2.2.2 o ho⟩
        · simp at hnil

/-- With all four ids non-null on every row, referential completeness holds for
the whole view-5 assembly. -/
lemma view5Assemble_complete (rows : List Row5)
    (hrows : ∀ r ∈ rows, r.pi_id ≠ none ∧ r.grant_id ≠ none ∧ r.funder_id ≠ none ∧ r.org_id ≠ none) :
    ∀ e ∈ (view5Assemble rows).edges,
      hasNode (view5Assemble rows).nodes e.1 = true
        ∧ hasNode (view5Assemble rows).nodes e.2 = true := by
  unfold view5Assemble
  refine foldl_inv_mem
    (fun s => ∀ e ∈ s.edges, hasNode s.nodes e.1 = true ∧ hasNode s.nodes e.2 = true)
    (fun r => r.pi_id ≠ none ∧ r.grant_id ≠ none ∧ r.funder_id ≠ none ∧ r.org_id ≠ none)
    view5Step (fun s r hr hs => view5Step_complete hr hs) rows _ hrows ?_
  intro e he
  simp at he

/-- The view-2 loop appends exactly two edges per consumed row. -/
lemma view2_edges_length : ∀ (rows : List Row2) (s : GraphAcc),
    (List.foldl view2Step s rows).edges.length = s.edges.length + 2 * rows.length := by
  intro rows
  induction rows with
  | nil => intro s; simp
  | cons r rest ih =>
      intro s
      rw [List.foldl_cons, ih]
      simp only [view2Step, List.length_append, List.length_cons, List.length_nil]
      omega

/-- The view-5 loop appends exactly three edges per consumed row. -/
lemma view5_edges_length : ∀ (rows : List Row5) (s : GraphAcc),
    (List.foldl view5Step s rows).edges.length = s.edges.length + 3 * rows.length := by
  intro rows
  induction rows with
  | nil => intro s; simp
  | cons r rest ih =>
      intro s
      rw [List.foldl_cons, ih]
      simp only [view5Step, List.length_append, List.length_cons, List.length_nil]
      omega

/-- A guard with a null second id appends nothing. -/
lemma guardEdge_none_right (a : NodeId) : guardEdge a none = [] := by
  cases a <;> rfl

/-- Every entry after the five unconditional view-3 additions is an old entry or
carries one of the five non-theme groups. -/
lemma mem_view3NodesBase {p : NodeId × GraphNode} {nodes : List (NodeId × GraphNode)} {r : Row3}
    (h : p ∈ view3NodesBase nodes r) :
    p ∈ nodes ∨ p.2.group = "funder" ∨ p.2.group = "grant" ∨ p.2.group = "pi"
      ∨ p.2.group = "org" ∨ p.2.group = "system" := by
  unfold view3NodesBase at h
  rcases mem_add_node h with h | h5
  · rcases mem_add_node h with h | h4
    · rcases mem_add_node h with h | h3
      · rcases mem_add_node h with h | h2
        · rcases mem_add_node h with h | h1
          · exact Or.inl h
          · exact Or.inr (Or.inl h1)
        · exact Or.inr (Or.inr (Or.inl h2))
      · exact Or.inr (Or.inr (Or.inr (Or.inl h3)))
    · exact Or.inr (Or.inr (Or.inr (Or.inr (Or.inl h4))))
  · exact Or.inr (Or.inr (Or.inr (Or.inr (Or.inr h5))))

/-- On a row whose theme binding is null, every node after the view-3 loop body
was already present or carries a non-theme group: no theme node is added. -/
lemma view3Step_nodes_no_theme {s : GraphAcc} {r : Row3} (hr : r.theme_id = none) :
    ∀ p ∈ (view3Step s r).nodes, p ∈ s.nodes ∨ p.2.group ≠ "theme" := by
  intro p hp
  simp only [view3Step] at hp
  unfold view3Nodes at hp
  rw [hr] at hp
  dsimp only at hp
  rcases mem_view3NodesBase hp with h | hg
  · exact Or.inl h
  · right
    rcases hg with h | h | h | h | h <;> simp [h]

/-- On a row whose theme binding is null, the view-3 loop body appends exactly
the four non-theme guarded pairs: no grant-to-theme edge is appended. -/
lemma view3Step_edges_no_theme {s : GraphAcc} {r : Row3} (hr : r.theme_id = none) :
    (view3Step s r).edges
      = s.edges ++ (guardEdge r.funder_id r.grant_id ++ guardEdge r.pi_id r.grant_id
          ++ guardEdge r.grant_id r.org_id ++ guardEdge r.org_id r.system_id) := by
  simp [view3Step, view3Edges, hr, guardEdge_none_right, List.append_assoc]

/-- A key absent from a color table looks up to nothing. -/
lemma lookupColor_eq_none {table : List (String × String)} {g : String}
    (h : g ∉ table.map Prod.fst) : lookupColor table g = none := by
  induction table with
  | nil => rfl
  | cons p rest ih =>
      obtain ⟨k, v⟩ := p
      simp only [List.map_cons, List.mem_cons] at h
      push_neg at h
      simp only [lookupColor]
      rw [if_neg (fun e => h.1 e.symm)]
      exact ih h.2

/-! ### C1 -/

/-- C1 counterexample: in the cancer-network view's assembly loop a row whose
`pi_id` is null still contributes the edge `(null, grant_id)`, so it is not the
case that every graph view appends an edge only when both endpoints are
non-null. -/
theorem claim_C1_counterexample :
    ((none : NodeId), some 10) ∈ (view2Assemble [nullPiRow]).edges := by
  decide

/-- C1 (amended): in the full-ecosystem view's assembly loop an edge is appended
only if both of its endpoint ids are non-null; in the cancer-network,
multi-organization and MSU views edges are appended unconditionally, so there a
null endpoint can reach the edge list. -/
theorem claim_C1 (rows : List Row3) :
    ∀ e ∈ (view3Assemble rows).edges, e.1 ≠ none ∧ e.2 ≠ none := by
  intro e he
  unfold view3Assemble at he
  rw [view3_edges_foldl] at he
  simp only [List.nil_append] at he
  obtain ⟨r, hr, her⟩ := List.mem_flatMap.mp he
  unfold view3Edges at her
  rcases List.mem_append.mp her with h4 | h5
  · rcases List.mem_append.mp h4 with h3 | hsys
    · rcases List.mem_append.mp h3 with h2 | horg
      · rcases List.mem_append.mp h2 with hfg | hpg
        · obtain ⟨he2, ha, hb⟩ := mem_guardEdge hfg
          subst he2
          exact ⟨ha, hb⟩
        · obtain ⟨he2, ha, hb⟩ := mem_guardEdge hpg
          subst he2
          exact ⟨ha, hb⟩
      · obtain ⟨he2, ha, hb⟩ := mem_guardEdge horg
        subst he2
        exact ⟨ha, hb⟩
    · obtain ⟨he2, ha, hb⟩ := mem_guardEdge hsys
      subst he2
      exact ⟨ha, hb⟩
  · obtain ⟨he2, ha, hb⟩ := mem_guardEdge h5
    subst he2
    exact ⟨ha, hb⟩

/-- Witness for C1: the funder-to-grant edge of a concrete full-ecosystem row has
both endpoints non-null. -/
theorem claim_C1_witness :
    ((some 1 : NodeId) ≠ none) ∧ ((some 2 : NodeId) ≠ none) :=
  claim_C1 [funderGrantRow] (some 1, some 2) (by decide)

/-! ### C2 -/

/-- C2 counterexample: in the multi-organization view, a row with a null `pi_id`
appends the edge `(null, grant_id)` whose source is not a key of the node set,
so referential completeness fails for an arbitrary row sequence. -/
theorem claim_C2_counterexample :
    ¬ (∀ e ∈ (view4Assemble [nullPiRow]).edges,
        hasNode (view4Assemble [nullPiRow]).nodes e.1 = true
          ∧ hasNode (view4Assemble [nullPiRow]).nodes e.2 = true) := by
  decide

/-- C2 (amended): every edge of the assembled edge list has both endpoints
present as keys of the assembled node set — unconditionally in the
full-ecosystem view, and in the cancer-network, multi-organization and MSU
views whenever every consumed row's declared entity ids are non-null. -/
theorem claim_C2 :
    (∀ rows : List Row3, ∀ e ∈ (view3Assemble rows).edges,
        hasNode (view3Assemble rows).nodes e.1 = true
          ∧ hasNode (view3Assemble rows).nodes e.2 = true) ∧
    (∀ rows : List Row2, (∀ r ∈ rows, r.pi_id ≠ none ∧ r.grant_id ≠ none ∧ r.org_id ≠ none) →
        ∀ e ∈ (view2Assemble rows).edges,
          hasNode (view2Assemble rows).nodes e.1 = true
            ∧ hasNode (view2Assemble rows).nodes e.2 = true) ∧
    (∀ rows : List Row2, (∀ r ∈ rows, r.pi_id ≠ none ∧ r.grant_id ≠ none ∧ r.org_id ≠ none) →
        ∀ e ∈ (view4Assemble rows).edges,
          hasNode (view4Assemble rows).nodes e.1 = true
            ∧ hasNode (view4Assemble rows).nodes e.2 = true) ∧
    (∀ rows : List Row5,
        (∀ r ∈ rows, r.pi_id ≠ none ∧ r.grant_id ≠ none ∧ r.funder_id ≠ none ∧ r.org_id ≠ none) →
        ∀ e ∈ (view5Assemble rows).edges,
          hasNode (view5Assemble rows).nodes e.1 = true
            ∧ hasNode (view5Assemble rows).nodes e.2 = true) := by
  refine ⟨view3Assemble_complete, view2Assemble_complete, ?_, view5Assemble_complete⟩
  intro rows hrows
  rw [view4Assemble_eq]
  exact view2Assemble_complete rows hrows

/-- Witness for C2: both endpoints of the funder-to-grant edge of a concrete
full-ecosystem assembly are keys of its node set. -/
theorem claim_C2_witness :
    hasNode (view3Assemble [funderGrantRow]).nodes (some 1) = true
      ∧ hasNode (view3Assemble [funderGrantRow]).nodes (some 2) = true :=
  claim_C2.1 [funderGrantRow] (some 1, some 2) (by decide)

/-! ### C3 -/

/-- C3: node identifiers are unique keys within one assembled graph, and a
binding created by an earlier row survives any later rows unchanged, so the
first row contributing an id fixes its label and group for good. -/
theorem claim_C3 :
    (∀ rows : List Row2, ((view2Assemble rows).nodes.map Prod.fst).Nodup) ∧
    (∀ (rows rows2 : List Row2) (k : NodeId) (n : GraphNode),
        lookupNode (view2Assemble rows).nodes k = some n →
        lookupNode (view2Assemble (rows ++ rows2)).nodes k = some n) := by
  constructor
  · intro rows
    exact view2_foldl_nodup rows _ (by simp)
  · intro rows rows2 k n h
    unfold view2Assemble at h ⊢
    rw [List.foldl_append]
    exact view2_foldl_stable rows2 _ h

/-- Witness for C3: two rows both declaring id 42, with labels A then B, leave
node 42 with label A and group pi. -/
theorem claim_C3_witness :
    lookupNode (view2Assemble [dupRowA, dupRowB]).nodes (some 42)
      = some { id := some 42, label := "A", group := "pi" } :=
  claim_C3.2 [dupRowA] [dupRowB] (some 42)
    { id := some 42, label := "A", group := "pi" } (by decide)

/-! ### C4 -/

/-- C4: in every graph view, a null value in a declared entity-id column never
produces a node: the assembled node set has no entry keyed by null, because
`add_node` returns without inserting when `node_id` is `None`. -/
theorem claim_C4 (rs2 : List Row2) (rs3 : List Row3) (rs4 : List Row2) (rs5 : List Row5) :
    lookupNode (view2Assemble rs2).nodes none = none ∧
    lookupNode (view3Assemble rs3).nodes none = none ∧
    lookupNode (view4Assemble rs4).nodes none = none ∧
    lookupNode (view5Assemble rs5).nodes none = none := by
  refine ⟨?_, ?_, ?_, ?_⟩
  · unfold view2Assemble
    exact foldl_inv (fun (s : GraphAcc) => lookupNode s.nodes none = none) view2Step
      (fun s r hs => lookupNode_view2Nodes_none hs r) rs2 { nodes := [], edges := [] } rfl
  · unfold view3Assemble
    exact foldl_inv (fun (s : GraphAcc) => lookupNode s.nodes none = none) view3Step
      (fun s r hs => lookupNode_view3Nodes_none hs r) rs3 { nodes := [], edges := [] } rfl
  · rw [view4Assemble_eq]
    unfold view2Assemble
    exact foldl_inv (fun (s : GraphAcc) => lookupNode s.nodes none = none) view2Step
      (fun s r hs => lookupNode_view2Nodes_none hs r) rs4 { nodes := [], edges := [] } rfl
  · unfold view5Assemble
    exact foldl_inv (fun (s : GraphAcc) => lookupNode s.nodes none = none) view5Step
      (fun s r hs => lookupNode_view5Nodes_none hs r) rs5 { nodes := [], edges := [] } rfl

/-! ### C5 -/

/-- C5: a render cycle re-initializes its own node and edge state, so two runs
over the same row sequence — whatever states earlier cycles left behind —
produce identical node sets (pointwise equal lookups) and identical edge
sequences. -/
theorem claim_C5 (s1 s2 : GraphAcc) (rows : List Row2) :
    view2Run s1 rows = view2Run s2 rows ∧
    (∀ k, lookupNode (view2Run s1 rows).nodes k = lookupNode (view2Assemble rows).nodes k) ∧
    (view2Run s1 rows).edges = (view2Assemble rows).edges :=
  ⟨rfl, fun _ => rfl, rfl⟩

/-! ### C6 -/

/-- C6: in the full-ecosystem view, for every row whose theme binding is null —
whatever state earlier rows of the sequence left behind — the loop body adds no
theme node (every node afterwards was already present or is non-theme) and
appends exactly the four non-theme guarded edges, so no grant-to-theme edge; and
over any row sequence, a theme node appears in the assembled node set only when
some row carries a non-null theme binding. -/
theorem claim_C6 :
    (∀ (s : GraphAcc) (r : Row3), r.theme_id = none →
        (∀ p ∈ (view3Step s r).nodes, p ∈ s.nodes ∨ p.2.group ≠ "theme") ∧
        (view3Step s r).edges
          = s.edges ++ (guardEdge r.funder_id r.grant_id ++ guardEdge r.pi_id r.grant_id
              ++ guardEdge r.grant_id r.org_id ++ guardEdge r.org_id r.system_id)) ∧
    (∀ rows : List Row3, ∀ p ∈ (view3Assemble rows).nodes, p.2.group = "theme" →
        ∃ r ∈ rows, r.theme_id ≠ none) := by
  constructor
  · intro s r h
    exact ⟨view3Step_nodes_no_theme h, view3Step_edges_no_theme h⟩
  · intro rows
    unfold view3Assemble
    refine foldl_inv_mem
      (fun (s : GraphAcc) => ∀ p ∈ s.nodes, p.2.group = "theme" → ∃ r ∈ rows, r.theme_id ≠ none)
      (fun (r : Row3) => r ∈ rows) view3Step ?_ rows { nodes := [], edges := [] }
      (fun r hr => hr) ?_
    · intro s r hrmem hs p hp htheme
      by_cases hth : r.theme_id = none
      · rcases view3Step_nodes_no_theme hth p hp with hold | hne
        · exact hs p hold htheme
        · exact absurd htheme hne
      · exact ⟨r, hrmem, hth⟩
    · intro p hp
      simp at hp

/-- Witness for C6 (Scenario B): one row with all entity ids bound except a null
theme binding yields exactly the four non-theme edges. -/
theorem claim_C6_witness :
    (view3Assemble [scenarioBRow]).edges
      = [(some 1, some 2), (some 3, some 2), (some 2, some 4), (some 4, some 5)] := by
  have h := (claim_C6.1 { nodes := [], edges := [] } scenarioBRow (by decide)).2
  exact h.trans (by decide)

/-! ### C7 -/

/-- C7: edges are not de-duplicated — the view-2 edge list is exactly the two
pairs per row in row order, so multiplicity is preserved; in particular the two
Scenario D rows sharing grant 10 with organizations 100 and 200 yield one grant
node, two org nodes and two grant-to-org edges. -/
theorem claim_C7 :
    (∀ rows : List Row2, (view2Assemble rows).edges
        = rows.flatMap (fun r => [(r.pi_id, r.grant_id), (r.grant_id, r.org_id)])) ∧
    ((view2Assemble [scenarioDRow1, scenarioDRow2]).nodes.filter
        (fun p => p.2.group = "grant")).length = 1 ∧
    ((view2Assemble [scenarioDRow1, scenarioDRow2]).nodes.filter
        (fun p => p.2.group = "org")).length = 2 ∧
    (view2Assemble [scenarioDRow1, scenarioDRow2]).edges
      = [(some 1, some 10), (some 10, some 100), (some 1, some 10), (some 10, some 200)] := by
  refine ⟨?_, by decide, by decide, by decide⟩
  intro rows
  unfold view2Assemble
  rw [view2_edges_foldl]
  simp

/-! ### C8 -/

/-- C8: a group outside the color table's fixed enumeration still produces a
node — `add_node` inserts it regardless of the group — and rendering resolves
it to the neutral default color 999999 through the static lookup; nothing
fails on an unknown group. -/
theorem claim_C8 (g : String) (hg : g ∉ group_colors.map Prod.fst) :
    groupColor g = "#999999" ∧
    (∀ (nodes : List (NodeId × GraphNode)) (i : Int) (l : Option String),
        hasNode (add_node nodes (some i) l g) (some i) = true) ∧
    (∀ (i : Int) (l : Option String) (es : List Edge) (t : String),
        build_and_render_network (add_node [] (some i) l g) es t
          = RenderResult.rendered t
              [{ id := some i, label := labelOr l g, color := "#999999" }] es) := by
  have hcolor : groupColor g = "#999999" := by
    unfold groupColor
    rw [lookupColor_eq_none hg]
  refine ⟨hcolor, fun nodes i l => hasNode_add_node_self nodes i l g, fun i l es t => ?_⟩
  have hins : add_node [] (some i) l g
      = [(some i, { id := some i, label := labelOr l g, group := g })] := rfl
  rw [hins]
  simp [build_and_render_network, hcolor]

/-- Witness for C8: the unknown group alien maps to the neutral default color. -/
theorem claim_C8_witness : groupColor "alien" = "#999999" :=
  (claim_C8 "alien" (by decide)).1

/-! ### C9 -/

/-- C9: an empty row list makes the view-2 controller emit its no-results
warning and stop before any assembly or rendering, and an empty node set makes
`build_and_render_network` emit its no-nodes warning and return before
constructing any network. -/
theorem claim_C9 :
    (∀ rows : List Row2, rows = [] → view2_controller rows
        = ViewOutcome.noResults "No cancer-related grants found with this pattern.") ∧
    (∀ (nodes : List (NodeId × GraphNode)) (es : List Edge) (t : String), nodes = [] →
        build_and_render_network nodes es t
          = RenderResult.noNodes "No nodes to display for this query.") := by
  constructor
  · intro rows h
    subst h
    rfl
  · intro nodes es t h
    subst h
    rfl

/-- Witness for C9: the empty row list and the empty node set each take the
warning branch. -/
theorem claim_C9_witness :
    view2_controller [] = ViewOutcome.noResults "No cancer-related grants found with this pattern."
      ∧ build_and_render_network [] [] "t"
          = RenderResult.noNodes "No nodes to display for this query." :=
  ⟨claim_C9.1 [] rfl, claim_C9.2 [] [] "t" rfl⟩

/-! ### C10 -/

/-- C10: the cancer-network and multi-organization loops append exactly two
edges per consumed row and the MSU loop exactly three, unconditionally; every
row's pairs reach the edge list as-is, so a null entity id occurs there as an
edge endpoint. -/
theorem claim_C10 (rs2 : List Row2) (rs4 : List Row2) (rs5 : List Row5) :
    (view2Assemble rs2).edges.length = 2 * rs2.length ∧
    (view4Assemble rs4).edges.length = 2 * rs4.length ∧
    (view5Assemble rs5).edges.length = 3 * rs5.length ∧
    (∀ r ∈ rs2, (r.pi_id, r.grant_id) ∈ (view2Assemble rs2).edges
        ∧ (r.grant_id, r.org_id) ∈ (view2Assemble rs2).edges) := by
  refine ⟨?_, ?_, ?_, ?_⟩
  · unfold view2Assemble
    rw [view2_edges_length]
    simp
  · rw [view4Assemble_eq]
    unfold view2Assemble
    rw [view2_edges_length]
    simp
  · unfold view5Assemble
    rw [view5_edges_length]
    simp
  · intro r hr
    unfold view2Assemble
    rw [view2_edges_foldl]
    simp only [List.nil_append]
    exact ⟨List.mem_flatMap.mpr ⟨r, hr, by simp⟩, List.mem_flatMap.mpr ⟨r, hr, by simp⟩⟩

/-- Witness for C10: a single row with a null PI id still appends two edges, and
the null turns up as an edge endpoint. -/
theorem claim_C10_witness :
    (view2Assemble [nullPiRow]).edges.length = 2
      ∧ ((none : NodeId), some 10) ∈ (view2Assemble [nullPiRow]).edges := by
  have h := claim_C10 [nullPiRow] [] []
  exact ⟨h.1, (h.2.2.2 nullPiRow (by decide)).1⟩

end ResearchFundingDB
